import Mathlib

/-!
Verification of the Expected-Points (xP) core of the
`dritte-liga-table-of-justice` repository: a shallow embedding of
`src/calculators/xp_calculator.py` (the Poisson match-outcome model and the
season aggregator) and of `src/calculators/standings_calculator.py` (the
classic-standings aggregation), together with proofs and refutations of the
specification's claims about them.

Modelling conventions:
* Python floats are modelled exactly: rationals (`ℚ`) in the aggregators, reals
  (`ℝ`) in the Poisson model; `NaN`/missing cells are `Option.none`.
* Python `round(x, 3)` is modelled as exact round-half-to-even at three
  decimals.
* Python dicts are association lists with insertion order and in-place
  overwrite; Python string comparison is comparison of code-point sequences.
* `pandas.sort_values` runs with its default `kind='quicksort'`, which pandas
  documents as unstable: the order among rows with equal keys is unspecified
  by the code. The model below is an executable sort whose output is a
  permutation of its input, weakly descending by the key; the concrete order
  it gives equal-key rows is an arbitrary choice of the model, and no theorem
  in this file depends on that choice.
-/

/-! ### Exact rounding at three decimals (`ℚ` version, for the aggregators) -/

/-- Round-half-to-even on rationals: the integer nearest to `y`, taking ties to
the even neighbour; the behaviour of Python `round` at integer precision over
exact arithmetic. -/
def rhe (y : ℚ) : ℤ :=
  if y - ⌊y⌋ < 1/2 then ⌊y⌋
  else if 1/2 < y - ⌊y⌋ then ⌊y⌋ + 1
  else if ⌊y⌋ % 2 = 0 then ⌊y⌋ else ⌊y⌋ + 1

/-- Python `round(x, 3)` over exact rational arithmetic. -/
def round3 (x : ℚ) : ℚ := (rhe (1000 * x) : ℚ) / 1000

/-- A rational that is an integer multiple of `1/1000`, i.e. representable with
three decimal digits. -/
def Thousandth (q : ℚ) : Prop := ∃ k : ℤ, q = (k : ℚ) / 1000

/-! ### Rows and team-value extraction (`SeasonXPProcessor._extract_team_values`) -/

/-- One data row of a per-matchday file, after metric/team column resolution:
`home_team, away_team, home_<metric>, away_<metric>`; `none` models a missing
(NaN) cell. -/
structure MatchRow where
  home_team : Option String
  away_team : Option String
  home_val : Option ℚ
  away_val : Option ℚ
deriving DecidableEq

/-- Python-dict lookup over a chronological write list: the value of the last
write to key `k`, if any. -/
def dget (m : List (String × ℚ)) (k : String) : Option ℚ :=
  ((m.filter (fun p => p.1 == k)).getLast?).map Prod.snd

/-- Embeds `SeasonXPProcessor._extract_team_values`: a row contributes its two
values only when all four fields are non-NaN (`all(pd.notna([...]))`); the home
value is written first, then the away value (a later write overwrites an
earlier one, via `dget`). -/
def extract_team_values (rows : List MatchRow) : List (String × ℚ) :=
  rows.foldl (fun acc r =>
    match r.home_team, r.away_team, r.home_val, r.away_val with
    | some h, some a, some hv, some av => acc ++ [(h, hv), (a, av)]
    | _, _, _, _ => acc) []

/-! ### Spieltag-number extraction (`SeasonXPProcessor._extract_spieltag_from_filename`)

The four regex alternatives `spieltag[-_](\d+)`, `(\d+)[-_]spieltag`,
`round[-_](\d+)`, `matchday[-_](\d+)` are tried in order on the lower-cased
filename, with `re.search` leftmost-match semantics. -/

/-- Bool test: `pat` occurs character-for-character at the head of `s`. -/
def leadsWith : List Char → List Char → Bool
  | [], _ => true
  | _ :: _, [] => false
  | a :: as, b :: bs => a == b && leadsWith as bs

/-- Maximal digit run at the head of the list, and the remainder. -/
def takeDigits : List Char → List Char × List Char
  | [] => ([], [])
  | c :: cs =>
    if c.isDigit then
      let p := takeDigits cs
      (c :: p.1, p.2)
    else ([], c :: cs)

/-- Numeric value of a digit string, as Python `int`. -/
def digitsVal (ds : List Char) : ℕ := ds.foldl (fun n c => 10 * n + (c.toNat - 48)) 0

/-- The separator class `[-_]`. -/
def isSep (c : Char) : Bool := c == '-' || c == '_'

/-- The alternative `kw[-_](\d+)` anchored at the head of `s`. -/
def matchKwNumAt (kw : List Char) (s : List Char) : Option ℕ :=
  if leadsWith kw s then
    match s.drop kw.length with
    | c :: rest =>
      if isSep c then
        let p := takeDigits rest
        if p.1.isEmpty then none else some (digitsVal p.1)
      else none
    | [] => none
  else none

/-- The alternative `(\d+)[-_]kw` anchored at the head of `s`. -/
def matchNumKwAt (kw : List Char) (s : List Char) : Option ℕ :=
  let p := takeDigits s
  if p.1.isEmpty then none
  else
    match p.2 with
    | c :: r2 => if isSep c && leadsWith kw r2 then some (digitsVal p.1) else none
    | [] => none

/-- Leftmost-match search: try the anchored matcher at every suffix, left to
right; models `re.search` for the patterns above. -/
def searchPos (f : List Char → Option ℕ) : List Char → Option ℕ
  | [] => f []
  | c :: cs =>
    match f (c :: cs) with
    | some n => some n
    | none => searchPos f cs

/-- Embeds `SeasonXPProcessor._extract_spieltag_from_filename`. -/
def extract_spieltag_from_filename (filename : String) : Option ℕ :=
  let s := filename.data.map Char.toLower
  match searchPos (matchKwNumAt "spieltag".data) s with
  | some n => some n
  | none =>
    match searchPos (matchNumKwAt "spieltag".data) s with
    | some n => some n
    | none =>
      match searchPos (matchKwNumAt "round".data) s with
      | some n => some n
      | none => searchPos (matchKwNumAt "matchday".data) s

/-! ### Sorting (Python `sorted` and pandas `sort_values`) -/

/-- Code points of a string; Python compares strings by this sequence. -/
def cpts (s : String) : List ℕ := s.data.map Char.toNat

/-- Insertion into an ascending-by-key list. -/
def insAsc {α β : Type} [LinearOrder β] (key : α → β) (x : α) : List α → List α
  | [] => [x]
  | h :: t => if key x ≤ key h then x :: h :: t else h :: insAsc key x t

/-- Model of Python `sorted` by a key. -/
def sortAsc {α β : Type} [LinearOrder β] (key : α → β) (l : List α) : List α :=
  l.foldr (insAsc key) []

/-- Insertion of `x` into a descending-by-`tot` list. Where `x` lands relative
to elements with an equal total is one concrete choice; nothing below relies on
it. -/
def insDesc {α β : Type} [LinearOrder β] (tot : α → β) (x : α) : List α → List α
  | [] => [x]
  | h :: t => if tot h < tot x then x :: h :: t else h :: insDesc tot x t

/-- Model of `DataFrame.sort_values(..., ascending=False)`. The code uses the
default `kind='quicksort'`, which pandas documents as unstable, so the code
only guarantees a permutation of the rows that is weakly descending by the
key; this executable model commits to one concrete tie placement and no
theorem below depends on it (only on the permutation and weak-descending
properties). -/
def sortDesc {α β : Type} [LinearOrder β] (tot : α → β) (l : List α) : List α :=
  l.foldl (fun acc x => insDesc tot x acc) []

/-! ### Season aggregation (`SeasonXPProcessor.create_season_table` and
`SeasonXPProcessor._build_season_dataframe`) -/

/-- One source file: its name and its parsed rows. -/
structure MFile where
  name : String
  rows : List MatchRow
deriving DecidableEq

/-- Python dict assignment `d[k] = v` on an association list keyed by `ℕ`:
in-place overwrite if the key is present, append otherwise. -/
def dset {α : Type} (m : List (ℕ × α)) (k : ℕ) (v : α) : List (ℕ × α) :=
  if m.any (fun p => p.1 == k) then m.map (fun p => if p.1 == k then (k, v) else p)
  else m ++ [(k, v)]

/-- Python dict lookup on an association list keyed by `ℕ`. -/
def dfind {α : Type} (m : List (ℕ × α)) (k : ℕ) : Option α :=
  (m.find? (fun p => p.1 == k)).map Prod.snd

/-- First phase of `SeasonXPProcessor.create_season_table`: iterate the files in
sorted-by-name order (`for file_path in sorted(files)`); skip files without a
parsable spieltag number; skip files yielding no team values; record each
spieltag's team values (a later file with the same spieltag overwrites) and
accumulate every team name seen (`all_teams.update(...)`). -/
def scanStep (acc : List (ℕ × List (String × ℚ)) × List String) (f : MFile) :
    List (ℕ × List (String × ℚ)) × List String :=
  match extract_spieltag_from_filename f.name with
  | none => acc
  | some st =>
    let tv := extract_team_values f.rows
    if tv.isEmpty then acc else (dset acc.1 st tv, acc.2 ++ tv.map Prod.fst)

/-- First phase of `SeasonXPProcessor.create_season_table` (continued): the loop
over the sorted files. -/
def scanFiles (files : List MFile) :
    List (ℕ × List (String × ℚ)) × List String :=
  (sortAsc (fun f => cpts f.name) files).foldl scanStep ([], [])

/-- One row of the season table: team, per-spieltag cells in ascending spieltag
order, and the trailing total column. -/
structure SRow where
  team : String
  cells : List (Option ℚ)
  total : ℚ
deriving DecidableEq

/-- The season table: its spieltag column keys in final order, and its rows in
final order. -/
structure SeasonTable where
  cols : List ℕ
  rows : List SRow
deriving DecidableEq

/-- Embeds `SeasonXPProcessor._build_season_dataframe` applied to
`sorted(all_teams)`: a cell is the rounded extracted value or missing
(`np.nan`); the total is the rounded skip-NaN sum of the row's cells; rows are
sorted by total descending; columns are ordered by spieltag number ascending
(`sorted(spieltag_cols, key=...int...)`). -/
def build_season_dataframe (sd : List (ℕ × List (String × ℚ)))
    (teams : List String) : SeasonTable :=
  let sts := sortAsc (fun n => n) (sd.map Prod.fst)
  let rows := teams.map (fun t =>
    let cells := sts.map (fun st =>
      match dfind sd st with
      | none => none
      | some tv => (dget tv t).map round3)
    { team := t, cells := cells, total := round3 ((cells.filterMap id).sum) : SRow })
  { cols := sts, rows := sortDesc SRow.total rows }

/-- Embeds `SeasonXPProcessor.create_season_table` after file discovery; `none`
models the "no data" early return. -/
def create_season_table (files : List MFile) : Option SeasonTable :=
  let sc := scanFiles files
  if sc.1.isEmpty then none
  else some (build_season_dataframe sc.1 (sortAsc cpts sc.2.dedup))

/-! ### Classic standings (`GenerateClassicStandings`) -/

/-- One result row of a per-matchday file with actual goals. -/
structure GoalRow where
  home_team : String
  away_team : String
  home_goals : ℤ
  away_goals : ℤ
deriving DecidableEq

/-- One source file for the classic-standings calculator. -/
structure GFile where
  name : String
  rows : List GoalRow
deriving DecidableEq

/-- Bool test: `pat` occurs at the end of `s` (Python `str.endswith`). -/
def tailIs (pat : List Char) (s : List Char) : Bool := leadsWith pat.reverse s.reverse

/-- Bool test: `pat` occurs somewhere in `s` (Python `in` on strings). -/
def hasRun (pat : List Char) : List Char → Bool
  | [] => leadsWith pat []
  | c :: cs => leadsWith pat (c :: cs) || hasRun pat cs

/-- The file filter of `GenerateClassicStandings.calculate_points_per_spieltag`. -/
def classicKeep (name : String) : Bool :=
  tailIs ".csv".data name.data && !tailIs "_xg.csv".data name.data &&
  !tailIs "_xp.csv".data name.data &&
  (hasRun "soccerway".data name.data || hasRun "footystats".data name.data)

/-- Python dict update `d[k] = f(d.get(k))` on an association list keyed by
`String`: insertion order preserved, in-place overwrite. -/
def oset {α : Type} (m : List (String × α)) (k : String) (f : Option α → α) :
    List (String × α) :=
  if m.any (fun p => p.1 == k) then
    m.map (fun p => if p.1 == k then (k, f (some p.2)) else p)
  else m ++ [(k, f none)]

/-- Per-match 3-1-0 points update for one result row (home written first). -/
def addPoints (pts : List (String × ℕ)) (r : GoalRow) : List (String × ℕ) :=
  if r.away_goals < r.home_goals then
    oset (oset pts r.home_team (fun o => o.getD 0 + 3)) r.away_team (fun o => o.getD 0 + 0)
  else if r.home_goals = r.away_goals then
    oset (oset pts r.home_team (fun o => o.getD 0 + 1)) r.away_team (fun o => o.getD 0 + 1)
  else
    oset (oset pts r.home_team (fun o => o.getD 0 + 0)) r.away_team (fun o => o.getD 0 + 3)

/-- One iteration of the file loop in `calculate_points_per_spieltag`: compute
this file's points dict, append each team's points to its list, then pad every
list still shorter than the 1-based file index by a single `None`. -/
def classicStep (tp : List (String × List (Option ℕ))) (idx : ℕ)
    (rows : List GoalRow) : List (String × List (Option ℕ)) :=
  let pts := rows.foldl addPoints []
  let tp2 := pts.foldl (fun acc q => oset acc q.1 (fun o => (o.getD []) ++ [some q.2])) tp
  tp2.map (fun q => if q.2.length < idx then (q.1, q.2 ++ [none]) else q)

/-- The team-by-column matrix produced by `calculate_points_per_spieltag`:
column labels `points_spieltag{i}` are modelled by their 1-based index `i`. -/
structure ClassicMatrix where
  cols : List ℕ
  rows : List (String × List (Option ℕ))
deriving DecidableEq

/-- Embeds `GenerateClassicStandings.calculate_points_per_spieltag` for a given
directory listing: files are filtered (never sorted, never parsed for a
spieltag number); the 1-based position of a file in the listing is its column;
ragged rows are NaN-padded to the file count (`DataFrame.from_dict`). -/
def calculate_points_per_spieltag (files : List GFile) : ClassicMatrix :=
  let kept := files.filter (fun f => classicKeep f.name)
  let n := kept.length
  let tp := (kept.enum.map (fun q => (q.1 + 1, q.2))).foldl
    (fun acc q => classicStep acc q.1 q.2.rows) []
  { cols := List.range' 1 n,
    rows := tp.map (fun q => (q.1, q.2 ++ List.replicate (n - q.2.length) none)) }

/-- Embeds `GenerateClassicStandings.calculate_classic_standings`: per-team
total points (skip-NaN sum over the point columns), rows sorted by total
descending; the output keeps only team and total. -/
def calculate_classic_standings (files : List GFile) : List (String × ℕ) :=
  let m := calculate_points_per_spieltag files
  sortDesc Prod.snd (m.rows.map (fun q => (q.1, (q.2.filterMap id).sum)))

/-! ### The Poisson match-outcome model (`XPCalculator`), over `ℝ` -/

noncomputable section

/-- Round-half-to-even on `ℝ` (Python `round` at integer precision). -/
def rheR (y : ℝ) : ℤ :=
  if y - ⌊y⌋ < 1/2 then ⌊y⌋
  else if 1/2 < y - ⌊y⌋ then ⌊y⌋ + 1
  else if ⌊y⌋ % 2 = 0 then ⌊y⌋ else ⌊y⌋ + 1

/-- Python `round(x, 3)` on `ℝ`. -/
def round3R (x : ℝ) : ℝ := (rheR (1000 * x) : ℝ) / 1000

/-- `scipy.stats.poisson.pmf(k, lam)` in exact real arithmetic. -/
def poissonPmf (lam : ℝ) (k : ℕ) : ℝ :=
  Real.exp (-lam) * lam ^ k / (Nat.factorial k)

/-- Probability mass the `(max_goals+1)²` scoreline grid assigns to home wins
(`home_goals > away_goals`). -/
def pHomeWin (G : ℕ) (lh la : ℝ) : ℝ :=
  ∑ h ∈ Finset.range (G + 1), ∑ a ∈ Finset.range (G + 1),
    if a < h then poissonPmf lh h * poissonPmf la a else 0

/-- Probability mass the grid assigns to away wins. -/
def pAwayWin (G : ℕ) (lh la : ℝ) : ℝ :=
  ∑ h ∈ Finset.range (G + 1), ∑ a ∈ Finset.range (G + 1),
    if h < a then poissonPmf lh h * poissonPmf la a else 0

/-- Probability mass the grid assigns to draws. -/
def pDraw (G : ℕ) (lh la : ℝ) : ℝ :=
  ∑ h ∈ Finset.range (G + 1), ∑ a ∈ Finset.range (G + 1),
    if h = a then poissonPmf lh h * poissonPmf la a else 0

/-- Truncated Poisson cumulative mass `P(X ≤ G)`. -/
def poissonCdf (G : ℕ) (lam : ℝ) : ℝ := ∑ k ∈ Finset.range (G + 1), poissonPmf lam k

/-- Embeds `XPCalculator.compute_xp` (`none` models NaN): the NaN guard, the
grid accumulation `xp_home = 3·P(home win) + P(draw)` (and symmetrically), and
the final `round(·, 3)`. -/
def compute_xp (G : ℕ) (xg_home xg_away : Option ℝ) : Option ℝ × Option ℝ :=
  match xg_home, xg_away with
  | some lh, some la =>
    (some (round3R (3 * pHomeWin G lh la + pDraw G lh la)),
     some (round3R (3 * pAwayWin G lh la + pDraw G lh la)))
  | _, _ => (none, none)

/-- Embeds `XPCalculator.calculate_match_probabilities` (`none` models NaN). -/
def calculate_match_probabilities (G : ℕ) (xg_home xg_away : Option ℝ) :
    Option ℝ × Option ℝ × Option ℝ :=
  match xg_home, xg_away with
  | some lh, some la =>
    (some (round3R (pHomeWin G lh la)), some (round3R (pDraw G lh la)),
     some (round3R (pAwayWin G lh la)))
  | _, _ => (none, none, none)

end

/-! ### Witness fixtures for the season aggregator -/

/-- Witness fixture: matchday-1 source (TeamA 1.2, TeamB 0.7). -/
def wfile1 : MFile :=
  ⟨"spieltag-1_xp.csv", [⟨some "TeamA", some "TeamB", some (6/5), some (7/10)⟩]⟩

/-- Witness fixture: matchday-2 source (TeamB 1, TeamC 2; no TeamA record). -/
def wfile2 : MFile :=
  ⟨"spieltag-2_xp.csv", [⟨some "TeamB", some "TeamC", some 1, some 2⟩]⟩

/-- Witness fixture: matchday-3 source (TeamA 0.8, TeamC 3). -/
def wfile3 : MFile :=
  ⟨"spieltag-3_xp.csv", [⟨some "TeamA", some "TeamC", some (4/5), some 3⟩]⟩

/-- The season table the aggregator produces from the three witness files. -/
def wTable : SeasonTable :=
  ⟨[1, 2, 3],
   [⟨"TeamC", [none, some 2, some 3], 5⟩,
    ⟨"TeamA", [some (6/5), none, some (4/5)], 2⟩,
    ⟨"TeamB", [some (7/10), some 1, none], 17/10⟩]⟩

/-- Column-order witness fixture: a matchday-10 source. -/
def cfile10 : MFile :=
  ⟨"spieltag-10_xp.csv", [⟨some "TeamA", some "TeamB", some 1, some 2⟩]⟩

/-- Column-order witness fixture: a matchday-2 source. -/
def cfile2 : MFile :=
  ⟨"spieltag-2_xp.csv", [⟨some "TeamA", some "TeamB", some 1, some 2⟩]⟩

/-- Column-order witness fixture: a matchday-1 source. -/
def cfile1 : MFile :=
  ⟨"spieltag-1_xp.csv", [⟨some "TeamA", some "TeamB", some 1, some 2⟩]⟩

/-- The season table produced from the three column-order witness files. -/
def cTable : SeasonTable :=
  ⟨[1, 2, 10],
   [⟨"TeamB", [some 2, some 2, some 2], 6⟩,
    ⟨"TeamA", [some 1, some 1, some 1], 3⟩]⟩

/-- Classic-standings witness fixture: one result file named after matchday 10. -/
def gfile10 : GFile := ⟨"soccerway_spieltag-10.csv", [⟨"TeamA", "TeamB", 2, 0⟩]⟩

/-- The corresponding xP-side source file, also named after matchday 10. -/
def xfile10 : MFile :=
  ⟨"soccerway_spieltag-10_xp.csv", [⟨some "TeamA", some "TeamB", some 2, some 1⟩]⟩

/-! ## Lemmas: exact rounding on `ℚ` -/

theorem rhe_intCast (k : ℤ) : rhe (k : ℚ) = k := by
  unfold rhe
  rw [Int.floor_intCast]
  norm_num

theorem round3_of_thousandth {q : ℚ} (h : Thousandth q) : round3 q = q := by
  obtain ⟨k, rfl⟩ := h
  have h1 : 1000 * ((k : ℚ) / 1000) = (k : ℚ) := by ring
  rw [round3, h1, rhe_intCast]

theorem thousandth_round3 (x : ℚ) : Thousandth (round3 x) := ⟨rhe (1000 * x), rfl⟩

theorem thousandth_sum : ∀ (l : List ℚ), (∀ q ∈ l, Thousandth q) → Thousandth l.sum
  | [], _ => ⟨0, by simp⟩
  | q :: t, h => by
    obtain ⟨a, ha⟩ := h q (List.mem_cons_self q t)
    obtain ⟨b, hb⟩ := thousandth_sum t (fun x hx => h x (List.mem_cons_of_mem _ hx))
    refine ⟨a + b, ?_⟩
    rw [List.sum_cons, ha, hb]
    push_cast
    ring

/-! ## Lemmas: the sort models -/

theorem insAsc_perm {α β : Type} [LinearOrder β] (key : α → β) (x : α) :
    ∀ l : List α, List.Perm (insAsc key x l) (x :: l)
  | [] => List.Perm.refl _
  | h :: t => by
    unfold insAsc
    by_cases hc : key x ≤ key h
    · simp [hc]
    · simp only [hc, if_false]
      exact ((insAsc_perm key x t).cons h).trans (List.Perm.swap x h t)

theorem sortAsc_perm {α β : Type} [LinearOrder β] (key : α → β) :
    ∀ l : List α, List.Perm (sortAsc key l) l
  | [] => List.Perm.refl _
  | h :: t => by
    have h1 : sortAsc key (h :: t) = insAsc key h (sortAsc key t) := rfl
    rw [h1]
    exact ((insAsc_perm key h _).trans ((sortAsc_perm key t).cons h))

theorem mem_insAsc {α β : Type} [LinearOrder β] {key : α → β} {x y : α} {l : List α}
    (h : y ∈ insAsc key x l) : y = x ∨ y ∈ l := by
  have := (insAsc_perm key x l).mem_iff.mp h
  simpa using this

theorem insAsc_pairwise {α β : Type} [LinearOrder β] {key : α → β} (x : α) :
    ∀ {l : List α}, l.Pairwise (fun a b => key a ≤ key b) →
      (insAsc key x l).Pairwise (fun a b => key a ≤ key b)
  | [], _ => by simp [insAsc]
  | h :: t, hp => by
    unfold insAsc
    by_cases hc : key x ≤ key h
    · simp only [hc, if_true]
      refine List.Pairwise.cons ?_ hp
      intro y hy
      rcases List.mem_cons.mp hy with rfl | hyt
      · exact hc
      · exact le_trans hc ((List.pairwise_cons.mp hp).1 y hyt)
    · simp only [hc, if_false]
      refine List.Pairwise.cons ?_ (insAsc_pairwise x (List.pairwise_cons.mp hp).2)
      intro y hy
      rcases mem_insAsc hy with rfl | hyt
      · exact le_of_not_le hc
      · exact (List.pairwise_cons.mp hp).1 y hyt

theorem sortAsc_pairwise {α β : Type} [LinearOrder β] (key : α → β) :
    ∀ l : List α, (sortAsc key l).Pairwise (fun a b => key a ≤ key b)
  | [] => List.Pairwise.nil
  | h :: t => insAsc_pairwise h (sortAsc_pairwise key t)

theorem eq_of_perm_of_key_sorted {α β : Type} [LinearOrder β] (key : α → β) :
    ∀ (l₁ l₂ : List α), List.Perm l₁ l₂ → (l₁.map key).Nodup →
      l₁.Pairwise (fun a b => key a ≤ key b) →
      l₂.Pairwise (fun a b => key a ≤ key b) → l₁ = l₂
  | [], l₂, hp, _, _, _ => hp.nil_eq
  | a :: t₁, [], hp, _, _, _ => absurd hp.symm.nil_eq (by simp)
  | a :: t₁, b :: t₂, hp, hn, hs₁, hs₂ => by
    have hab : a = b := by
      have ha2 : a ∈ b :: t₂ := hp.mem_iff.mp (List.mem_cons_self a t₁)
      have hb1 : b ∈ a :: t₁ := hp.symm.mem_iff.mp (List.mem_cons_self b t₂)
      rcases List.mem_cons.mp ha2 with h1 | h1
      · exact h1
      rcases List.mem_cons.mp hb1 with h2 | h2
      · exact h2.symm
      have hle1 : key a ≤ key b := (List.pairwise_cons.mp hs₁).1 b h2
      have hle2 : key b ≤ key a := (List.pairwise_cons.mp hs₂).1 a h1
      have hk : key a = key b := le_antisymm hle1 hle2
      exfalso
      have hmem : key b ∈ t₁.map key := List.mem_map_of_mem key h2
      rw [← hk] at hmem
      exact (List.nodup_cons.mp hn).1 hmem
    subst hab
    have ht : t₁ = t₂ :=
      eq_of_perm_of_key_sorted key t₁ t₂ hp.cons_inv (List.nodup_cons.mp hn).2
        (List.pairwise_cons.mp hs₁).2 (List.pairwise_cons.mp hs₂).2
    rw [ht]

theorem sortAsc_eq_of_perm {α β : Type} [LinearOrder β] (key : α → β) {l₁ l₂ : List α}
    (hp : List.Perm l₁ l₂) (hn : (l₁.map key).Nodup) : sortAsc key l₁ = sortAsc key l₂ := by
  refine eq_of_perm_of_key_sorted key _ _
    (((sortAsc_perm key l₁).trans hp).trans (sortAsc_perm key l₂).symm) ?_
    (sortAsc_pairwise key l₁) (sortAsc_pairwise key l₂)
  have hm : List.Perm ((sortAsc key l₁).map key) (l₁.map key) := (sortAsc_perm key l₁).map key
  exact hm.nodup_iff.mpr hn

theorem insDesc_perm {α β : Type} [LinearOrder β] (tot : α → β) (x : α) :
    ∀ l : List α, List.Perm (insDesc tot x l) (x :: l)
  | [] => List.Perm.refl _
  | h :: t => by
    unfold insDesc
    by_cases hc : tot h < tot x
    · simp [hc]
    · simp only [hc, if_false]
      exact ((insDesc_perm tot x t).cons h).trans (List.Perm.swap x h t)

theorem sortDesc_aux_perm {α β : Type} [LinearOrder β] (tot : α → β) :
    ∀ (l acc : List α), List.Perm (l.foldl (fun a x => insDesc tot x a) acc) (acc ++ l)
  | [], acc => by simp
  | h :: t, acc => by
    have h1 : (h :: t).foldl (fun a x => insDesc tot x a) acc
        = t.foldl (fun a x => insDesc tot x a) (insDesc tot h acc) := rfl
    rw [h1]
    refine (sortDesc_aux_perm tot t (insDesc tot h acc)).trans ?_
    refine (((insDesc_perm tot h acc).append_right t).trans ?_)
    exact List.perm_middle.symm

theorem sortDesc_perm {α β : Type} [LinearOrder β] (tot : α → β) (l : List α) :
    List.Perm (sortDesc tot l) l := by
  simpa using sortDesc_aux_perm tot l []

theorem mem_sortDesc {α β : Type} [LinearOrder β] {tot : α → β} {l : List α} {y : α} :
    y ∈ sortDesc tot l ↔ y ∈ l := (sortDesc_perm tot l).mem_iff

theorem mem_insDesc {α β : Type} [LinearOrder β] {tot : α → β} {x y : α} {l : List α}
    (h : y ∈ insDesc tot x l) : y = x ∨ y ∈ l := by
  have := (insDesc_perm tot x l).mem_iff.mp h
  simpa using this

/-! ## Lemmas: the season table -/

theorem season_total_of_mem (sd : List (ℕ × List (String × ℚ))) (teams : List String)
    (r : SRow) (hr : r ∈ (build_season_dataframe sd teams).rows) :
    r.total = (r.cells.filterMap id).sum := by
  have hr2 : r ∈ teams.map (fun t =>
      let cells := (sortAsc (fun n => n) (sd.map Prod.fst)).map (fun st =>
        match dfind sd st with
        | none => none
        | some tv => (dget tv t).map round3)
      { team := t, cells := cells, total := round3 ((cells.filterMap id).sum) : SRow }) :=
    mem_sortDesc.mp hr
  obtain ⟨t, _, rfl⟩ := List.mem_map.mp hr2
  simp only
  have hth : ∀ q ∈ (((sortAsc (fun n => n) (sd.map Prod.fst)).map (fun st =>
      match dfind sd st with
      | none => none
      | some tv => (dget tv t).map round3)).filterMap id), Thousandth q := by
    intro q hq
    obtain ⟨o, ho, hoq⟩ := List.mem_filterMap.mp hq
    obtain ⟨st, _, hst⟩ := List.mem_map.mp ho
    simp only [id_eq] at hoq
    subst hoq
    rcases hdf : dfind sd st with _ | tv
    · rw [hdf] at hst
      simp at hst
    · rw [hdf] at hst
      obtain ⟨v, _, hv⟩ := Option.map_eq_some'.mp hst
      exact hv ▸ thousandth_round3 v
  exact round3_of_thousandth (thousandth_sum _ hth)

/-- C4: in the season table built by the aggregator, every team's total column
equals the sum of that team's non-missing per-matchday cells; missing matchdays
contribute nothing (they are skipped by the sum, not counted as zero and not
averaged over). -/
theorem claim_C4_total_is_sum_of_present (files : List MFile) (T : SeasonTable)
    (hT : create_season_table files = some T) (r : SRow) (hr : r ∈ T.rows) :
    r.total = (r.cells.filterMap id).sum := by
  unfold create_season_table at hT
  dsimp only at hT
  rcases hE : (scanFiles files).1.isEmpty with _ | _
  · rw [hE] at hT
    simp at hT
    subst hT
    exact season_total_of_mem _ _ r hr
  · rw [hE] at hT
    simp at hT

/-! ## Concrete evaluation of the witness fixtures -/

theorem scan_witness_files : scanFiles [wfile3, wfile1, wfile2] =
    ([(1, [("TeamA", (6/5 : ℚ)), ("TeamB", 7/10)]), (2, [("TeamB", 1), ("TeamC", 2)]),
      (3, [("TeamA", 4/5), ("TeamC", 3)])],
     ["TeamA", "TeamB", "TeamB", "TeamC", "TeamA", "TeamC"]) := by
  have s12 : cpts "spieltag-1_xp.csv" ≤ cpts "spieltag-2_xp.csv" := by decide
  have s31 : ¬ (cpts "spieltag-3_xp.csv" ≤ cpts "spieltag-1_xp.csv") := by decide
  have s32 : ¬ (cpts "spieltag-3_xp.csv" ≤ cpts "spieltag-2_xp.csv") := by decide
  have e1 : extract_spieltag_from_filename "spieltag-1_xp.csv" = some 1 := by decide
  have e2 : extract_spieltag_from_filename "spieltag-2_xp.csv" = some 2 := by decide
  have e3 : extract_spieltag_from_filename "spieltag-3_xp.csv" = some 3 := by decide
  simp [scanFiles, scanStep, sortAsc, insAsc, wfile1, wfile2, wfile3, s12, s31, s32, e1, e2, e3,
    extract_team_values, dset]

theorem build_witness_table : build_season_dataframe
    [(1, [("TeamA", (6/5 : ℚ)), ("TeamB", 7/10)]), (2, [("TeamB", 1), ("TeamC", 2)]),
     (3, [("TeamA", 4/5), ("TeamC", 3)])] ["TeamA", "TeamB", "TeamC"] = wTable := by
  have r1 : round3 (6/5 : ℚ) = 6/5 := round3_of_thousandth ⟨1200, by norm_num⟩
  have r2 : round3 (7/10 : ℚ) = 7/10 := round3_of_thousandth ⟨700, by norm_num⟩
  have r3 : round3 (1 : ℚ) = 1 := round3_of_thousandth ⟨1000, by norm_num⟩
  have r4 : round3 (2 : ℚ) = 2 := round3_of_thousandth ⟨2000, by norm_num⟩
  have r5 : round3 (4/5 : ℚ) = 4/5 := round3_of_thousandth ⟨800, by norm_num⟩
  have r6 : round3 (3 : ℚ) = 3 := round3_of_thousandth ⟨3000, by norm_num⟩
  have r7 : round3 (6/5 + 4/5 : ℚ) = 2 := by
    rw [show (6/5 + 4/5 : ℚ) = 2 by norm_num]
    exact round3_of_thousandth ⟨2000, by norm_num⟩
  have r8 : round3 (7/10 + 1 : ℚ) = 17/10 := by
    rw [show (7/10 + 1 : ℚ) = 17/10 by norm_num]
    exact round3_of_thousandth ⟨1700, by norm_num⟩
  have r9 : round3 (2 + 3 : ℚ) = 5 := by
    rw [show (2 + 3 : ℚ) = 5 by norm_num]
    exact round3_of_thousandth ⟨5000, by norm_num⟩
  have c1 : ¬ ((2 : ℚ) < 17/10) := by norm_num
  have c2 : ((2 : ℚ) < 5) := by norm_num
  simp [build_season_dataframe, sortAsc, insAsc, sortDesc, insDesc, dfind, dget, wTable,
    r1, r2, r3, r4, r5, r6, r7, r8, r9, c1, c2]

theorem wTable_eval : create_season_table [wfile3, wfile1, wfile2] = some wTable := by
  unfold create_season_table
  rw [scan_witness_files]
  have u1 : ¬ (cpts "TeamB" ≤ cpts "TeamA") := by decide
  have u2 : cpts "TeamB" ≤ cpts "TeamC" := by decide
  simp only [List.isEmpty_cons, if_false, Bool.false_eq_true]
  rw [show (["TeamA", "TeamB", "TeamB", "TeamC", "TeamA", "TeamC"] : List String).dedup
    = ["TeamB", "TeamA", "TeamC"] by simp]
  rw [show sortAsc cpts ["TeamB", "TeamA", "TeamC"] = ["TeamA", "TeamB", "TeamC"] by
    simp [sortAsc, insAsc, u1, u2]]
  rw [build_witness_table]

/-- C4 witness: on the three concrete matchday files, TeamA has values 1.2,
missing, 0.8, and its total in the produced table is 2.0, the sum of its two
present cells. -/
theorem claim_C4_witness :
    create_season_table [wfile3, wfile1, wfile2] = some wTable ∧
    (⟨"TeamA", [some (6/5), none, some (4/5)], 2⟩ : SRow) ∈ wTable.rows ∧
    (2 : ℚ) = ([some (6/5 : ℚ), none, some (4/5)].filterMap id).sum := by
  have hmem : (⟨"TeamA", [some (6/5), none, some (4/5)], 2⟩ : SRow) ∈ wTable.rows := by
    simp [wTable]
  exact ⟨wTable_eval, hmem,
    claim_C4_total_is_sum_of_present [wfile3, wfile1, wfile2] wTable wTable_eval _ hmem⟩

/-! ## Lemmas: discovery-order independence of the season table -/

theorem char_toNat_injective : Function.Injective Char.toNat := by
  intro a b h
  exact Char.eq_of_val_eq (UInt32.toNat.inj h)

theorem cpts_injective : Function.Injective cpts := by
  intro a b h
  exact String.ext (List.map_injective_iff.mpr char_toNat_injective h)

theorem scanFiles_eq_of_perm {l₁ l₂ : List MFile} (hp : List.Perm l₁ l₂)
    (hn : (l₁.map MFile.name).Nodup) : scanFiles l₁ = scanFiles l₂ := by
  unfold scanFiles
  rw [sortAsc_eq_of_perm (fun f => cpts f.name) hp ?_]
  have h1 : l₁.map (fun f => cpts f.name) = (l₁.map MFile.name).map cpts := by
    rw [List.map_map]
    rfl
  rw [h1]
  exact hn.map cpts_injective

theorem create_eq_of_perm {l₁ l₂ : List MFile} (hp : List.Perm l₁ l₂)
    (hn : (l₁.map MFile.name).Nodup) :
    create_season_table l₁ = create_season_table l₂ := by
  unfold create_season_table
  rw [scanFiles_eq_of_perm hp hn]

/-! ## Lemmas: column keys and their order -/

theorem dset_keys_nodup {α : Type} {m : List (ℕ × α)} (h : (m.map Prod.fst).Nodup)
    (k : ℕ) (v : α) : ((dset m k v).map Prod.fst).Nodup := by
  unfold dset
  by_cases hc : (m.any fun p => p.1 == k) = true
  · rw [if_pos hc]
    have hmap : (m.map (fun p => if p.1 == k then (k, v) else p)).map Prod.fst
        = m.map Prod.fst := by
      rw [List.map_map]
      apply List.map_congr_left
      intro p _
      by_cases hpk : (p.1 == k) = true
      · simp only [Function.comp, hpk, if_true]
        exact (beq_iff_eq.mp hpk).symm
      · simp [Function.comp, hpk]
    rw [hmap]
    exact h
  · rw [if_neg hc]
    rw [List.map_append]
    refine List.Nodup.append h (by simp) ?_
    intro x hx hxk
    simp only [List.map_cons, List.map_nil, List.mem_singleton] at hxk
    subst hxk
    obtain ⟨p, hpm, hpf⟩ := List.mem_map.mp hx
    apply hc
    rw [List.any_eq_true]
    exact ⟨p, hpm, by rw [hpf]; simp⟩

theorem scan_aux_keys_nodup :
    ∀ (fs : List MFile) (acc : List (ℕ × List (String × ℚ)) × List String),
      (acc.1.map Prod.fst).Nodup → (((fs.foldl scanStep acc).1).map Prod.fst).Nodup
  | [], _, h => h
  | f :: t, acc, h => by
    have hstep : ((scanStep acc f).1.map Prod.fst).Nodup := by
      unfold scanStep
      cases hx : extract_spieltag_from_filename f.name
      · exact h
      · dsimp only
        by_cases he : (extract_team_values f.rows).isEmpty = true
        · rw [if_pos he]
          exact h
        · rw [if_neg he]
          exact dset_keys_nodup h _ _
    exact scan_aux_keys_nodup t (scanStep acc f) hstep

theorem scanFiles_keys_nodup (files : List MFile) :
    ((scanFiles files).1.map Prod.fst).Nodup :=
  scan_aux_keys_nodup _ _ (by simp)

theorem build_cols_sorted (sd : List (ℕ × List (String × ℚ)))
    (h : (sd.map Prod.fst).Nodup) (teams : List String) :
    ((build_season_dataframe sd teams).cols).Pairwise (· < ·) := by
  unfold build_season_dataframe
  dsimp only
  have h1 := sortAsc_pairwise (fun n : ℕ => n) (sd.map Prod.fst)
  have h2 : (sortAsc (fun n : ℕ => n) (sd.map Prod.fst)).Nodup :=
    (sortAsc_perm (fun n : ℕ => n) (sd.map Prod.fst)).nodup_iff.mpr h
  exact (h1.and h2).imp (fun hab => lt_of_le_of_ne hab.1 hab.2)

/-- C6: the season table's matchday columns are ordered strictly ascending by
their parsed matchday number, and the column list is identical for every
discovery order of the source files (distinct names assumed). -/
theorem claim_C6_column_order (l₁ l₂ : List MFile) (hp : List.Perm l₁ l₂)
    (hn : (l₁.map MFile.name).Nodup) (T : SeasonTable)
    (hT : create_season_table l₁ = some T) :
    create_season_table l₂ = some T ∧ T.cols.Pairwise (· < ·) := by
  refine ⟨by rw [← create_eq_of_perm hp hn]; exact hT, ?_⟩
  unfold create_season_table at hT
  dsimp only at hT
  rcases hE : (scanFiles l₁).1.isEmpty with _ | _
  · rw [hE] at hT
    simp at hT
    subst hT
    exact build_cols_sorted _ (scanFiles_keys_nodup l₁) _
  · rw [hE] at hT
    simp at hT

theorem scan_c_files : scanFiles [cfile10, cfile2, cfile1] =
    ([(10, [("TeamA", (1 : ℚ)), ("TeamB", 2)]), (1, [("TeamA", 1), ("TeamB", 2)]),
      (2, [("TeamA", 1), ("TeamB", 2)])],
     ["TeamA", "TeamB", "TeamA", "TeamB", "TeamA", "TeamB"]) := by
  have d1 : ¬ (cpts "spieltag-2_xp.csv" ≤ cpts "spieltag-1_xp.csv") := by decide
  have d2 : cpts "spieltag-10_xp.csv" ≤ cpts "spieltag-1_xp.csv" := by decide
  have e10 : extract_spieltag_from_filename "spieltag-10_xp.csv" = some 10 := by decide
  have e1 : extract_spieltag_from_filename "spieltag-1_xp.csv" = some 1 := by decide
  have e2 : extract_spieltag_from_filename "spieltag-2_xp.csv" = some 2 := by decide
  simp [scanFiles, scanStep, sortAsc, insAsc, cfile10, cfile2, cfile1, d1, d2,
    e10, e1, e2, extract_team_values, dset]

theorem build_c_table : build_season_dataframe
    [(10, [("TeamA", (1 : ℚ)), ("TeamB", 2)]), (1, [("TeamA", 1), ("TeamB", 2)]),
     (2, [("TeamA", 1), ("TeamB", 2)])] ["TeamA", "TeamB"] = cTable := by
  have r1 : round3 (1 : ℚ) = 1 := round3_of_thousandth ⟨1000, by norm_num⟩
  have r2 : round3 (2 : ℚ) = 2 := round3_of_thousandth ⟨2000, by norm_num⟩
  have r3 : round3 (1 + (1 + 1) : ℚ) = 3 := by
    rw [show (1 + (1 + 1) : ℚ) = 3 by norm_num]
    exact round3_of_thousandth ⟨3000, by norm_num⟩
  have r4 : round3 (2 + (2 + 2) : ℚ) = 6 := by
    rw [show (2 + (2 + 2) : ℚ) = 6 by norm_num]
    exact round3_of_thousandth ⟨6000, by norm_num⟩
  have c1 : ((3 : ℚ) < 6) := by norm_num
  simp [build_season_dataframe, sortAsc, insAsc, sortDesc, insDesc, dfind, dget, cTable,
    r1, r2, r3, r4, c1]

theorem cTable_eval : create_season_table [cfile10, cfile2, cfile1] = some cTable := by
  unfold create_season_table
  rw [scan_c_files]
  have u1 : cpts "TeamA" ≤ cpts "TeamB" := by decide
  simp only [List.isEmpty_cons, if_false, Bool.false_eq_true]
  rw [show (["TeamA", "TeamB", "TeamA", "TeamB", "TeamA", "TeamB"] : List String).dedup
    = ["TeamA", "TeamB"] by simp]
  rw [show sortAsc cpts ["TeamA", "TeamB"] = ["TeamA", "TeamB"] by simp [sortAsc, insAsc, u1]]
  rw [build_c_table]

/-- C6 witness: matchdays 10, 2, 1 discovered in source order [10, 2, 1] (and in
the reversed order) produce the same table, whose columns are [1, 2, 10] —
numerically ascending, not the alphabetical order [1, 10, 2]. -/
theorem claim_C6_witness :
    create_season_table [cfile1, cfile2, cfile10] = some cTable ∧
    cTable.cols.Pairwise (· < ·) ∧ cTable.cols = [1, 2, 10] := by
  have h := claim_C6_column_order [cfile10, cfile2, cfile1] [cfile1, cfile2, cfile10]
    (by exact (List.reverse_perm [cfile10, cfile2, cfile1]).symm)
    (by decide) cTable cTable_eval
  exact ⟨h.1, h.2, rfl⟩

/-! ## Lemmas: row extraction (C2, C10) -/

theorem extract_append (rows : List MatchRow) (r : MatchRow) :
    extract_team_values (rows ++ [r]) = extract_team_values rows ++
      (match r.home_team, r.away_team, r.home_val, r.away_val with
       | some h, some a, some hv, some av => [(h, hv), (a, av)]
       | _, _, _, _ => []) := by
  unfold extract_team_values
  rw [List.foldl_append]
  rcases r with ⟨ht, aty, hv, av⟩
  cases ht <;> cases aty <;> cases hv <;> cases av <;> simp

theorem dget_append_single (m : List (String × ℚ)) (k : String) (v : ℚ) (t : String) :
    dget (m ++ [(k, v)]) t = if t = k then some v else dget m t := by
  unfold dget
  rw [List.filter_append]
  by_cases htk : t = k
  · subst htk
    simp
  · have hkt : (k == t) = false := by
      simp only [beq_eq_false_iff_ne, ne_eq]
      exact fun he => htk he.symm
    simp [hkt]
    rw [if_neg htk]

/-- C2 counterexample: a row with a valid home team and home metric value but a
missing away team contributes nothing at all — the home value is not kept,
contradicting the claimed per-side exclusion. -/
theorem claim_C2_counterexample :
    extract_team_values [⟨some "TeamA", none, some 1, some 1⟩] = [] ∧
    dget (extract_team_values [⟨some "TeamA", none, some 1, some 1⟩]) "TeamA" = none :=
  ⟨rfl, rfl⟩

/-- C2 amended: a record missing any of the four fields (either team or either
metric value) is excluded entirely, for both sides: appending such a row leaves
the extracted team values unchanged; only rows with all four fields present
contribute, and then they contribute both sides. -/
theorem claim_C2_amended_all_fields_required (rows : List MatchRow) (r : MatchRow)
    (h : r.home_team = none ∨ r.away_team = none ∨ r.home_val = none ∨ r.away_val = none) :
    extract_team_values (rows ++ [r]) = extract_team_values rows := by
  rw [extract_append]
  rcases r with ⟨ht, aty, hv, av⟩
  cases ht <;> cases aty <;> cases hv <;> cases av <;> simp_all

/-- C2 amended witness: appending the partial row (home team and home value
present, away team missing) changes nothing. -/
theorem claim_C2_amended_witness :
    extract_team_values ([] ++ [⟨some "TeamA", none, some (1 : ℚ), some 1⟩]) =
      extract_team_values [] :=
  claim_C2_amended_all_fields_required [] ⟨some "TeamA", none, some 1, some 1⟩
    (Or.inr (Or.inl rfl))

/-- C10: within one matchday file, writes happen in row order (home value, then
away value, per fully-populated row), and a later write overwrites an earlier
one: after appending a fully-populated row, team `t`'s stored value is the
row's away value if `t` is its away team, else its home value if `t` is its
home team, else the value from the earlier rows — so each team ends with
exactly the value of the last row (and side) mentioning it; values are never
summed or averaged. -/
theorem claim_C10_last_write_wins (rows : List MatchRow) (h a : String) (hv av : ℚ)
    (t : String) :
    dget (extract_team_values (rows ++ [⟨some h, some a, some hv, some av⟩])) t =
      if t = a then some av else if t = h then some hv
      else dget (extract_team_values rows) t := by
  rw [extract_append]
  have hsplit : extract_team_values rows ++ [(h, hv), (a, av)]
      = (extract_team_values rows ++ [(h, hv)]) ++ [(a, av)] := by
    rw [List.append_assoc]
    rfl
  rw [hsplit, dget_append_single, dget_append_single]

/-! ## Lemmas: characters and pattern scanning (C7) -/

theorem char_ofNat_toNat {n : ℕ} (h : Nat.isValidChar n) : (Char.ofNat n).toNat = n := by
  unfold Char.ofNat
  rw [dif_pos h]
  show (Char.ofNatAux n h).val.toNat = n
  unfold Char.ofNatAux
  simp [UInt32.toNat, BitVec.toNat_ofNatLt]

theorem isDigit_iff (c : Char) : c.isDigit = true ↔ 48 ≤ c.toNat ∧ c.toNat ≤ 57 := by
  simp only [Char.isDigit, Bool.and_eq_true, decide_eq_true_eq, ge_iff_le]
  constructor
  · intro h
    exact ⟨UInt32.le_toNat_of_le (by norm_num) h.1, UInt32.toNat_le_of_le (by norm_num) h.2⟩
  · intro h
    constructor
    · by_contra hc
      have hlt : c.val < 48 := UInt32.not_le.mp hc
      have := UInt32.toNat_lt_of_lt (n := c.val) (m := 48) (by norm_num) hlt
      have hh : c.toNat = c.val.toNat := rfl
      omega
    · by_contra hc
      have hlt : (57 : UInt32) < c.val := UInt32.not_le.mp hc
      have := UInt32.lt_toNat_of_lt (n := c.val) (m := 57) (by norm_num) hlt
      have hh : c.toNat = c.val.toNat := rfl
      omega

theorem digit_toLower {c : Char} (h : c.isDigit = true) : c.toLower = c := by
  unfold Char.toLower
  have h2 := (isDigit_iff c).mp h
  rw [if_neg]
  omega

theorem toLower_isDigit (c : Char) : (c.toLower).isDigit = c.isDigit := by
  unfold Char.toLower
  by_cases hr : c.toNat ≥ 65 ∧ c.toNat ≤ 90
  · rw [if_pos hr]
    have hv : Nat.isValidChar (c.toNat + 32) := Or.inl (by omega)
    have ht : (Char.ofNat (c.toNat + 32)).toNat = c.toNat + 32 := char_ofNat_toNat hv
    have h1 : (Char.ofNat (c.toNat + 32)).isDigit = false := by
      rcases hd : (Char.ofNat (c.toNat + 32)).isDigit with _ | _
      · rfl
      · have := (isDigit_iff _).mp hd
        rw [ht] at this
        omega
    have h2 : c.isDigit = false := by
      rcases hd : c.isDigit with _ | _
      · rfl
      · have := (isDigit_iff _).mp hd
        omega
    rw [h1, h2]
  · rw [if_neg hr]

theorem map_toLower_digits {ds : List Char} (h : ∀ c ∈ ds, c.isDigit = true) :
    ds.map Char.toLower = ds := by
  have h1 : ds.map Char.toLower = ds.map id :=
    List.map_congr_left (fun c hc => digit_toLower (h c hc))
  rw [h1, List.map_id]

theorem digit_ne {c c' : Char} (h : c.isDigit = true) (h' : c'.isDigit = false) : c ≠ c' := by
  intro he
  subst he
  rw [h] at h'
  simp at h'

theorem leadsWith_append (l r : List Char) : leadsWith l (l ++ r) = true := by
  induction l with
  | nil => rfl
  | cons a as ih => simp [leadsWith, ih]

theorem leadsWith_self (l : List Char) : leadsWith l l = true := by
  have := leadsWith_append l []
  rwa [List.append_nil] at this

theorem leadsWith_le_length : ∀ {p s : List Char}, leadsWith p s = true → p.length ≤ s.length
  | [], _, _ => by simp
  | a :: as, [], h => by simp [leadsWith] at h
  | a :: as, b :: bs, h => by
    simp only [leadsWith, Bool.and_eq_true] at h
    simpa using leadsWith_le_length h.2

theorem leadsWith_false_head {a b : Char} (as bs : List Char) (h : a ≠ b) :
    leadsWith (a :: as) (b :: bs) = false := by
  simp [leadsWith, h]

theorem takeDigits_split {ds : List Char} (h : ∀ c ∈ ds, c.isDigit = true) :
    ∀ rest : List Char, (∀ c, rest.head? = some c → c.isDigit = false) →
      takeDigits (ds ++ rest) = (ds, rest) := by
  induction ds with
  | nil =>
    intro rest hr
    rcases rest with _ | ⟨c, cs⟩
    · rfl
    · simp only [List.nil_append, takeDigits]
      rw [if_neg]
      rw [hr c rfl]
      simp
  | cons d ds ih =>
    intro rest hr
    have hd : d.isDigit = true := h d (List.mem_cons_self d ds)
    simp only [List.cons_append, takeDigits, hd, if_true, List.append_eq]
    rw [ih (fun c hc => h c (List.mem_cons_of_mem d hc)) rest hr]

theorem suffix_append_cases {t l r : List Char} (h : t <:+ l ++ r) :
    t <:+ r ∨ ∃ d, d <:+ l ∧ d ≠ [] ∧ t = d ++ r := by
  induction l with
  | nil => exact Or.inl (by simpa using h)
  | cons c l ih =>
    rcases List.suffix_cons_iff.mp (by simpa using h) with h1 | h1
    · exact Or.inr ⟨c :: l, List.suffix_refl _, by simp, by simpa using h1⟩
    · rcases ih h1 with h2 | ⟨d, hd1, hd2, hd3⟩
      · exact Or.inl h2
      · exact Or.inr ⟨d, hd1.trans (List.suffix_cons c l), hd2, hd3⟩

theorem searchPos_of_head {f : List Char → Option ℕ} {s : List Char} {n : ℕ}
    (h : f s = some n) : searchPos f s = some n := by
  rcases s with _ | ⟨c, cs⟩
  · exact h
  · simp only [searchPos, h]

theorem searchPos_eq_none {f : List Char → Option ℕ} :
    ∀ {s : List Char}, (∀ t, t <:+ s → f t = none) → searchPos f s = none
  | [], h => h [] (List.suffix_refl [])
  | c :: cs, h => by
    simp only [searchPos, h (c :: cs) (List.suffix_refl _)]
    exact searchPos_eq_none (fun t ht => h t (ht.trans (List.suffix_cons c cs)))

theorem matchKwNumAt_top {kw : List Char} {sep : Char} {ds : List Char}
    (hsep : isSep sep = true) (hne : ds ≠ [])
    (hdig : ∀ c ∈ ds, c.isDigit = true) :
    matchKwNumAt kw (kw ++ sep :: ds) = some (digitsVal ds) := by
  unfold matchKwNumAt
  rw [if_pos (leadsWith_append kw (sep :: ds))]
  rw [List.drop_left]
  have htake : takeDigits ds = (ds, []) := by
    have h0 := takeDigits_split hdig ([] : List Char) (by intro c hc; simp at hc)
    rwa [List.append_nil] at h0
  rcases ds with _ | ⟨d, ds2⟩
  · exact absurd rfl hne
  · simp [hsep, htake]

theorem matchNumKwAt_top {kw : List Char} {sep : Char} {ds : List Char}
    (hsep : isSep sep = true) (hsdig : sep.isDigit = false) (hne : ds ≠ [])
    (hdig : ∀ c ∈ ds, c.isDigit = true) :
    matchNumKwAt kw (ds ++ sep :: kw) = some (digitsVal ds) := by
  unfold matchNumKwAt
  have htake : takeDigits (ds ++ sep :: kw) = (ds, sep :: kw) := by
    apply takeDigits_split hdig
    intro c hc
    simp only [List.head?_cons, Option.some_inj] at hc
    rw [← hc]
    exact hsdig
  simp only [htake]
  rcases ds with _ | ⟨d, ds2⟩
  · exact absurd rfl hne
  · simp [hsep, leadsWith_self]

theorem matchKwNumAt_none_head {k0 : Char} {kr : List Char} {c : Char} {cs : List Char}
    (h : c ≠ k0) : matchKwNumAt (k0 :: kr) (c :: cs) = none := by
  unfold matchKwNumAt
  rw [if_neg]
  rw [leadsWith_false_head kr cs (Ne.symm h)]
  simp

theorem matchKwNumAt_none_nilS {k0 : Char} {kr : List Char} :
    matchKwNumAt (k0 :: kr) [] = none := by
  unfold matchKwNumAt
  rw [if_neg]
  simp [leadsWith]

theorem matchKwNumAt_none_self {kw : List Char} : matchKwNumAt kw kw = none := by
  unfold matchKwNumAt
  rw [if_pos (leadsWith_self kw), List.drop_length]

theorem matchKwNumAt_none_short {kw t : List Char} (h : t.length < kw.length) :
    matchKwNumAt kw t = none := by
  unfold matchKwNumAt
  rw [if_neg]
  intro hl
  exact absurd (leadsWith_le_length hl) (by omega)

theorem matchNumKwAt_none_nodigit {kw t : List Char}
    (h : ∀ c, t.head? = some c → c.isDigit = false) : matchNumKwAt kw t = none := by
  unfold matchNumKwAt
  rcases t with _ | ⟨c, cs⟩
  · simp [takeDigits]
  · have hc := h c rfl
    simp [takeDigits, hc]

theorem matchNumKwAt_none_alldigits {kw t : List Char}
    (h : ∀ c ∈ t, c.isDigit = true) : matchNumKwAt kw t = none := by
  have htake : takeDigits t = (t, []) := by
    have h0 := takeDigits_split h ([] : List Char) (by intro c hc; simp at hc)
    rwa [List.append_nil] at h0
  unfold matchNumKwAt
  simp only [htake]
  rcases t with _ | ⟨c, cs⟩
  · simp
  · simp

theorem matchKwNumAt_none_nodigits {kw t : List Char}
    (h : ∀ c ∈ t, c.isDigit = false) : matchKwNumAt kw t = none := by
  unfold matchKwNumAt
  by_cases hl : leadsWith kw t = true
  · rw [if_pos hl]
    rcases hdrop : t.drop kw.length with _ | ⟨c, rest⟩
    · rfl
    · have hsub : c :: rest ⊆ t := by
        rw [← hdrop]
        exact List.drop_subset _ t
      have htake : takeDigits rest = ([], rest) := by
        have h0 := takeDigits_split (show ∀ c ∈ ([] : List Char), c.isDigit = true by simp)
          rest ?_
        · simpa using h0
        · intro c' hc'
          rcases rest with _ | ⟨a, as⟩
          · simp at hc'
          · simp only [List.head?_cons, Option.some_inj] at hc'
            subst hc'
            exact h _ (hsub (List.mem_cons_of_mem c (List.mem_cons_self a as)))
      by_cases hs : isSep c = true
      · simp [hs, htake]
      · simp [hs]
  · rw [if_neg hl]

theorem searchKwNum_none_mixed {k0 : Char} {kr other ds : List Char} {sep : Char}
    (hother : ∀ c ∈ other, c ≠ k0) (hds : ∀ c ∈ ds, c.isDigit = true)
    (hk0 : k0.isDigit = false) (hsep : sep ≠ k0) :
    searchPos (matchKwNumAt (k0 :: kr)) (other ++ sep :: ds) = none := by
  apply searchPos_eq_none
  intro t ht
  rcases suffix_append_cases ht with h1 | ⟨d, hd1, hd2, hd3⟩
  · rcases List.suffix_cons_iff.mp h1 with h2 | h2
    · subst h2
      exact matchKwNumAt_none_head hsep
    · rcases t with _ | ⟨c, cs⟩
      · exact matchKwNumAt_none_nilS
      · have hc : c ∈ ds := h2.subset (List.mem_cons_self c cs)
        exact matchKwNumAt_none_head (digit_ne (hds c hc) hk0)
  · rcases d with _ | ⟨c, cs⟩
    · exact absurd rfl hd2
    · subst hd3
      exact matchKwNumAt_none_head (hother c (hd1.subset (List.mem_cons_self c cs)))

theorem searchKwNum_none_numfirst {k0 : Char} {kr ds : List Char} {sep : Char}
    (hds : ∀ c ∈ ds, c.isDigit = true) (hk0 : k0.isDigit = false) (hsep : sep ≠ k0) :
    searchPos (matchKwNumAt (k0 :: kr)) (ds ++ sep :: (k0 :: kr)) = none := by
  apply searchPos_eq_none
  intro t ht
  rcases suffix_append_cases ht with h1 | ⟨d, hd1, hd2, hd3⟩
  · rcases List.suffix_cons_iff.mp h1 with h2 | h2
    · subst h2
      exact matchKwNumAt_none_head hsep
    · by_cases hteq : t = k0 :: kr
      · subst hteq
        exact matchKwNumAt_none_self
      · have hlen : t.length < (k0 :: kr).length := by
          rcases lt_or_eq_of_le h2.length_le with h3 | h3
          · exact h3
          · exact absurd (h2.eq_of_length h3) hteq
        exact matchKwNumAt_none_short hlen
  · rcases d with _ | ⟨c, cs⟩
    · exact absurd rfl hd2
    · subst hd3
      exact matchKwNumAt_none_head
        (digit_ne (hds c (hd1.subset (List.mem_cons_self c cs))) hk0)

theorem searchNumKw_none_tail {kw other ds : List Char} {sep : Char}
    (hother : ∀ c ∈ other, c.isDigit = false) (hsdig : sep.isDigit = false)
    (hds : ∀ c ∈ ds, c.isDigit = true) :
    searchPos (matchNumKwAt kw) (other ++ sep :: ds) = none := by
  apply searchPos_eq_none
  intro t ht
  rcases suffix_append_cases ht with h1 | ⟨d, hd1, hd2, hd3⟩
  · rcases List.suffix_cons_iff.mp h1 with h2 | h2
    · subst h2
      apply matchNumKwAt_none_nodigit
      intro c hc
      simp only [List.head?_cons, Option.some_inj] at hc
      rw [← hc]
      exact hsdig
    · exact matchNumKwAt_none_alldigits (fun c hc => hds c (h2.subset hc))
  · rcases d with _ | ⟨c, cs⟩
    · exact absurd rfl hd2
    · subst hd3
      apply matchNumKwAt_none_nodigit
      intro c' hc'
      simp only [List.cons_append, List.head?_cons, Option.some_inj] at hc'
      rw [← hc']
      exact hother c (hd1.subset (List.mem_cons_self c cs))

theorem extract_none_of_no_digits (s : String)
    (h : ∀ c ∈ s.data, c.isDigit = false) : extract_spieltag_from_filename s = none := by
  unfold extract_spieltag_from_filename
  have hlow : ∀ c ∈ s.data.map Char.toLower, c.isDigit = false := by
    intro c hc
    obtain ⟨c0, hc0, rfl⟩ := List.mem_map.mp hc
    rw [toLower_isDigit]
    exact h c0 hc0
  have hkw : ∀ kw : List Char,
      searchPos (matchKwNumAt kw) (s.data.map Char.toLower) = none := fun kw =>
    searchPos_eq_none (fun t ht =>
      matchKwNumAt_none_nodigits (fun c hc => hlow c (ht.subset hc)))
  have hnk : searchPos (matchNumKwAt "spieltag".data) (s.data.map Char.toLower) = none := by
    apply searchPos_eq_none
    intro t ht
    apply matchNumKwAt_none_nodigit
    intro c hc
    rcases t with _ | ⟨a, as⟩
    · simp at hc
    · simp only [List.head?_cons, Option.some_inj] at hc
      subst hc
      exact hlow _ (ht.subset (List.mem_cons_self a as))
  simp only [hkw, hnk]

/-- C7 counterexample: the identifier `7-matchday.csv` exhibits both a digit
run adjoining a separator and the `N-matchday` form, which the claim lists as
accepted; the code's extraction returns no matchday for it (the source would be
skipped), not 7. -/
theorem claim_C7_counterexample :
    extract_spieltag_from_filename "7-matchday.csv" = none ∧
    extract_spieltag_from_filename "7-matchday.csv" ≠ some 7 := by
  refine ⟨by decide, by decide⟩

/-- C7 amended: the accepted identifier forms are exactly `spieltag` or `round`
or `matchday` followed by a `-`/`_` separator and a digit run `N`, and `N`
followed by a separator and `spieltag` — all case-insensitively via
lower-casing, `N` read as a decimal integer. A digit run that merely adjoins a
separator, or the forms `N-round`/`N-matchday`, are not accepted; an identifier
with no digit at all (hence matching no pattern) yields no matchday, so such a
source is skipped, not fatal. -/
theorem claim_C7_amended_patterns (ds : List Char) (sep : Char) (hne : ds ≠ [])
    (hdig : ∀ c ∈ ds, c.isDigit = true) (hsep : sep = '-' ∨ sep = '_') :
    extract_spieltag_from_filename ⟨"spieltag".data ++ sep :: ds⟩ = some (digitsVal ds) ∧
    extract_spieltag_from_filename ⟨"SPIELTAG".data ++ sep :: ds⟩ = some (digitsVal ds) ∧
    extract_spieltag_from_filename ⟨ds ++ sep :: "spieltag".data⟩ = some (digitsVal ds) ∧
    extract_spieltag_from_filename ⟨"round".data ++ sep :: ds⟩ = some (digitsVal ds) ∧
    extract_spieltag_from_filename ⟨"matchday".data ++ sep :: ds⟩ = some (digitsVal ds) ∧
    (∀ s : String, (∀ c ∈ s.data, c.isDigit = false) →
      extract_spieltag_from_filename s = none) := by
  have hsepS : isSep sep = true := by rcases hsep with rfl | rfl <;> decide
  have hsepD : sep.isDigit = false := by rcases hsep with rfl | rfl <;> decide
  have hsepL : sep.toLower = sep := by rcases hsep with rfl | rfl <;> decide
  have hsep_s : sep ≠ 's' := by rcases hsep with rfl | rfl <;> decide
  have hsep_r : sep ≠ 'r' := by rcases hsep with rfl | rfl <;> decide
  have hsep_m : sep ≠ 'm' := by rcases hsep with rfl | rfl <;> decide
  have hmapds : ds.map Char.toLower = ds := map_toLower_digits hdig
  refine ⟨?_, ?_, ?_, ?_, ?_, extract_none_of_no_digits⟩
  · unfold extract_spieltag_from_filename
    have hdata : (String.mk ("spieltag".data ++ sep :: ds)).data.map Char.toLower
        = "spieltag".data ++ sep :: ds := by
      show ("spieltag".data ++ sep :: ds).map Char.toLower = _
      rw [List.map_append]
      rw [show "spieltag".data.map Char.toLower = "spieltag".data from by decide]
      rw [show (sep :: ds).map Char.toLower = sep :: ds from by
        rw [List.map_cons, hmapds, hsepL]]
    rw [hdata]
    dsimp only
    rw [searchPos_of_head (matchKwNumAt_top hsepS hne hdig)]
  · unfold extract_spieltag_from_filename
    have hdata : (String.mk ("SPIELTAG".data ++ sep :: ds)).data.map Char.toLower
        = "spieltag".data ++ sep :: ds := by
      show ("SPIELTAG".data ++ sep :: ds).map Char.toLower = _
      rw [List.map_append]
      rw [show "SPIELTAG".data.map Char.toLower = "spieltag".data from by decide]
      rw [show (sep :: ds).map Char.toLower = sep :: ds from by
        rw [List.map_cons, hmapds, hsepL]]
    rw [hdata]
    dsimp only
    rw [searchPos_of_head (matchKwNumAt_top hsepS hne hdig)]
  · unfold extract_spieltag_from_filename
    have hdata : (String.mk (ds ++ sep :: "spieltag".data)).data.map Char.toLower
        = ds ++ sep :: "spieltag".data := by
      show (ds ++ sep :: "spieltag".data).map Char.toLower = _
      rw [List.map_append, hmapds]
      rw [show (sep :: "spieltag".data).map Char.toLower = sep :: "spieltag".data from by
        rw [List.map_cons, hsepL]
        rw [show "spieltag".data.map Char.toLower = "spieltag".data from by decide]]
    rw [hdata]
    dsimp only
    rw [searchKwNum_none_numfirst hdig (by decide) hsep_s]
    rw [searchPos_of_head (matchNumKwAt_top hsepS hsepD hne hdig)]
  · unfold extract_spieltag_from_filename
    have hdata : (String.mk ("round".data ++ sep :: ds)).data.map Char.toLower
        = "round".data ++ sep :: ds := by
      show ("round".data ++ sep :: ds).map Char.toLower = _
      rw [List.map_append]
      rw [show "round".data.map Char.toLower = "round".data from by decide]
      rw [show (sep :: ds).map Char.toLower = sep :: ds from by
        rw [List.map_cons, hmapds, hsepL]]
    rw [hdata]
    dsimp only
    rw [searchKwNum_none_mixed (by decide) hdig (by decide) hsep_s]
    rw [searchNumKw_none_tail (by decide) hsepD hdig]
    rw [searchPos_of_head (matchKwNumAt_top hsepS hne hdig)]
  · unfold extract_spieltag_from_filename
    have hdata : (String.mk ("matchday".data ++ sep :: ds)).data.map Char.toLower
        = "matchday".data ++ sep :: ds := by
      show ("matchday".data ++ sep :: ds).map Char.toLower = _
      rw [List.map_append]
      rw [show "matchday".data.map Char.toLower = "matchday".data from by decide]
      rw [show (sep :: ds).map Char.toLower = sep :: ds from by
        rw [List.map_cons, hmapds, hsepL]]
    rw [hdata]
    dsimp only
    rw [searchKwNum_none_mixed (by decide) hdig (by decide) hsep_s]
    rw [searchNumKw_none_tail (by decide) hsepD hdig]
    rw [searchKwNum_none_mixed (by decide) hdig (by decide) hsep_r]
    rw [searchPos_of_head (matchKwNumAt_top hsepS hne hdig)]

/-- C7 amended witness: `spieltag-42` parses to 42. -/
theorem claim_C7_amended_witness :
    extract_spieltag_from_filename ⟨"spieltag".data ++ '-' :: ['4', '2']⟩
      = some (digitsVal ['4', '2']) ∧ digitsVal ['4', '2'] = 42 :=
  ⟨(claim_C7_amended_patterns ['4', '2'] '-' (by decide) (by decide) (Or.inl rfl)).1,
   by decide⟩

/-! ## Lemmas: classic standings (C9) -/

theorem insDesc_pairwise_ge {α β : Type} [LinearOrder β] {tot : α → β} (x : α) :
    ∀ {l : List α}, l.Pairwise (fun a b => tot b ≤ tot a) →
      (insDesc tot x l).Pairwise (fun a b => tot b ≤ tot a)
  | [], _ => by simp [insDesc]
  | h :: t, hp => by
    unfold insDesc
    by_cases hc : tot h < tot x
    · simp only [hc, if_true]
      refine List.Pairwise.cons ?_ hp
      intro y hy
      rcases List.mem_cons.mp hy with rfl | hyt
      · exact le_of_lt hc
      · exact le_trans ((List.pairwise_cons.mp hp).1 y hyt) (le_of_lt hc)
    · simp only [hc, if_false]
      refine List.Pairwise.cons ?_ (insDesc_pairwise_ge x (List.pairwise_cons.mp hp).2)
      intro y hy
      rcases mem_insDesc hy with rfl | hyt
      · exact le_of_not_lt hc
      · exact (List.pairwise_cons.mp hp).1 y hyt

theorem sortDesc_aux_ge {α β : Type} [LinearOrder β] {tot : α → β} :
    ∀ (l acc : List α), acc.Pairwise (fun a b => tot b ≤ tot a) →
      (l.foldl (fun a x => insDesc tot x a) acc).Pairwise (fun a b => tot b ≤ tot a)
  | [], _, h => h
  | x :: t, acc, h => sortDesc_aux_ge t (insDesc tot x acc) (insDesc_pairwise_ge x h)

theorem sortDesc_total_sorted {α β : Type} [LinearOrder β] (tot : α → β) (l : List α) :
    (sortDesc tot l).Pairwise (fun a b => tot b ≤ tot a) :=
  sortDesc_aux_ge l [] List.Pairwise.nil

/-- C9 counterexample: for the single source file `soccerway_spieltag-10.csv`,
the xP season aggregator keys its column by the parsed matchday number (10),
but the classic-standings aggregation keys its only column by the file's
position in the listing (1): the two tables do not share matchday keying. -/
theorem claim_C9_counterexample :
    (calculate_points_per_spieltag [gfile10]).cols = [1] ∧
    extract_spieltag_from_filename "soccerway_spieltag-10.csv" = some 10 ∧
    (create_season_table [xfile10]).map SeasonTable.cols = some [10] ∧
    (calculate_points_per_spieltag [gfile10]).cols ≠ [10] := by
  refine ⟨by decide, by decide, by decide, by decide⟩

/-- C9 amended: the classic-standings aggregation does not share the xP
aggregator's matrix keying or ranking implementation. Its point columns are
keyed by the 1-based position of each kept file in the (unsorted) directory
listing — `List.range' 1 n` for `n` kept files — never by a parsed matchday
number; its standings output keeps only team and total points, ordered by
total descending (with no team-name tie-break rule of its own). Only the
per-match 3-1-0 scoring rule relates it to the xP table. -/
theorem claim_C9_amended_position_keyed (files : List GFile) :
    (calculate_points_per_spieltag files).cols
      = List.range' 1 (files.filter (fun f => classicKeep f.name)).length ∧
    (calculate_classic_standings files).Pairwise (fun a b => b.2 ≤ a.2) := by
  constructor
  · rfl
  · exact sortDesc_total_sorted Prod.snd _

/-! ## Lemmas: the Poisson outcome model (C1, C3, C8) -/

theorem poissonPmf_nonneg {lam : ℝ} (h : 0 ≤ lam) (k : ℕ) : 0 ≤ poissonPmf lam k := by
  unfold poissonPmf
  positivity

theorem sum_pmf_eq (n : ℕ) (lam : ℝ) :
    ∑ k ∈ Finset.range n, poissonPmf lam k
      = Real.exp (-lam) * ∑ k ∈ Finset.range n, lam ^ k / (Nat.factorial k) := by
  rw [Finset.mul_sum]
  apply Finset.sum_congr rfl
  intro k _
  unfold poissonPmf
  rw [mul_div_assoc]

theorem poissonCdf_nonneg {G : ℕ} {lam : ℝ} (h : 0 ≤ lam) : 0 ≤ poissonCdf G lam :=
  Finset.sum_nonneg (fun k _ => poissonPmf_nonneg h k)

theorem poissonCdf_le_one {G : ℕ} {lam : ℝ} (h : 0 ≤ lam) : poissonCdf G lam ≤ 1 := by
  unfold poissonCdf
  rw [sum_pmf_eq]
  have h1 : ∑ k ∈ Finset.range (G + 1), lam ^ k / (Nat.factorial k) ≤ Real.exp lam :=
    Real.sum_le_exp_of_nonneg h _
  have h2 : Real.exp (-lam) * ∑ k ∈ Finset.range (G + 1), lam ^ k / (Nat.factorial k)
      ≤ Real.exp (-lam) * Real.exp lam :=
    mul_le_mul_of_nonneg_left h1 (Real.exp_pos _).le
  rw [← Real.exp_add] at h2
  simpa using h2

theorem bucket_partition (G : ℕ) (lh la : ℝ) :
    pHomeWin G lh la + pDraw G lh la + pAwayWin G lh la
      = poissonCdf G lh * poissonCdf G la := by
  unfold pHomeWin pDraw pAwayWin poissonCdf
  rw [Finset.sum_mul_sum]
  rw [← Finset.sum_add_distrib, ← Finset.sum_add_distrib]
  apply Finset.sum_congr rfl
  intro h _
  rw [← Finset.sum_add_distrib, ← Finset.sum_add_distrib]
  apply Finset.sum_congr rfl
  intro a _
  rcases lt_trichotomy a h with hlt | heq | hgt
  · rw [if_pos hlt, if_neg (ne_of_gt hlt), if_neg (not_lt_of_gt hlt)]
    ring
  · rw [if_neg (by omega), if_pos heq.symm, if_neg (by omega)]
    ring
  · rw [if_neg (by omega), if_neg (by omega), if_pos hgt]
    ring

theorem gridSum_nonneg (G : ℕ) {lh la : ℝ} (h1 : 0 ≤ lh) (h2 : 0 ≤ la)
    (p : ℕ → ℕ → Prop) [DecidableRel p] :
    0 ≤ ∑ h ∈ Finset.range (G + 1), ∑ a ∈ Finset.range (G + 1),
      if p h a then poissonPmf lh h * poissonPmf la a else 0 := by
  apply Finset.sum_nonneg
  intro h _
  apply Finset.sum_nonneg
  intro a _
  by_cases hp : p h a
  · rw [if_pos hp]
    exact mul_nonneg (poissonPmf_nonneg h1 h) (poissonPmf_nonneg h2 a)
  · rw [if_neg hp]

theorem pHomeWin_nonneg {G : ℕ} {lh la : ℝ} (h1 : 0 ≤ lh) (h2 : 0 ≤ la) :
    0 ≤ pHomeWin G lh la := gridSum_nonneg G h1 h2 _

theorem pAwayWin_nonneg {G : ℕ} {lh la : ℝ} (h1 : 0 ≤ lh) (h2 : 0 ≤ la) :
    0 ≤ pAwayWin G lh la := gridSum_nonneg G h1 h2 _

theorem pDraw_nonneg {G : ℕ} {lh la : ℝ} (h1 : 0 ≤ lh) (h2 : 0 ≤ la) :
    0 ≤ pDraw G lh la := gridSum_nonneg G h1 h2 _

theorem buckets_le_cdfs (G : ℕ) {lh la : ℝ} (h1 : 0 ≤ lh) (h2 : 0 ≤ la) :
    pHomeWin G lh la ≤ poissonCdf G lh * poissonCdf G la ∧
    pDraw G lh la ≤ poissonCdf G lh * poissonCdf G la ∧
    pAwayWin G lh la ≤ poissonCdf G lh * poissonCdf G la := by
  have hpart := bucket_partition G lh la
  have ha := pHomeWin_nonneg (G := G) h1 h2
  have hb := pDraw_nonneg (G := G) h1 h2
  have hc := pAwayWin_nonneg (G := G) h1 h2
  refine ⟨by linarith, by linarith, by linarith⟩

theorem cdfs_prod_le_one {G : ℕ} {lh la : ℝ} (h1 : 0 ≤ lh) (h2 : 0 ≤ la) :
    poissonCdf G lh * poissonCdf G la ≤ 1 :=
  mul_le_one₀ (poissonCdf_le_one h1) (poissonCdf_nonneg h2) (poissonCdf_le_one h2)

theorem pAwayWin_symm (G : ℕ) (x : ℝ) : pAwayWin G x x = pHomeWin G x x := by
  unfold pAwayWin pHomeWin
  rw [Finset.sum_comm]
  apply Finset.sum_congr rfl
  intro h _
  apply Finset.sum_congr rfl
  intro a _
  by_cases hc : a < h
  · rw [if_pos hc, if_pos hc, mul_comm]
  · rw [if_neg hc, if_neg hc]

theorem rheR_nonneg {y : ℝ} (h : 0 ≤ y) : 0 ≤ rheR y := by
  unfold rheR
  have hf : (0 : ℤ) ≤ ⌊y⌋ := Int.floor_nonneg.mpr h
  split_ifs <;> omega

theorem rheR_le_of_le {y : ℝ} {B : ℤ} (h : y ≤ (B : ℝ)) : rheR y ≤ B := by
  have hfl : ⌊y⌋ ≤ B := by
    have := Int.floor_le_floor h
    rwa [Int.floor_intCast] at this
  unfold rheR
  split_ifs with hc1 hc2 hc3
  · exact hfl
  · have hfrac : (⌊y⌋ : ℝ) < y := by linarith
    have : ⌊y⌋ < B := by
      rcases lt_or_eq_of_le hfl with h1 | h1
      · exact h1
      · exfalso
        rw [h1] at hfrac
        linarith [Int.floor_le y]
    omega
  · exact hfl
  · have hfrac : (⌊y⌋ : ℝ) < y := by
      have hhalf : y - ⌊y⌋ = 1/2 := le_antisymm (le_of_not_lt hc2) (le_of_not_lt hc1)
      linarith
    have : ⌊y⌋ < B := by
      rcases lt_or_eq_of_le hfl with h1 | h1
      · exact h1
      · exfalso
        rw [h1] at hfrac
        linarith [Int.floor_le y]
    omega

theorem rheR_close (y : ℝ) : |((rheR y : ℤ) : ℝ) - y| ≤ 1/2 := by
  have hle := Int.floor_le y
  have hlt := Int.lt_floor_add_one y
  unfold rheR
  split_ifs with hc1 hc2 hc3 <;> rw [abs_le] <;> constructor <;> push_cast <;> linarith

theorem round3R_mem_unit {x : ℝ} (h0 : 0 ≤ x) (h1 : x ≤ 1) :
    0 ≤ round3R x ∧ round3R x ≤ 1 := by
  unfold round3R
  constructor
  · apply div_nonneg _ (by norm_num)
    have := rheR_nonneg (y := 1000 * x) (by linarith)
    exact_mod_cast this
  · rw [div_le_one (by norm_num)]
    have := rheR_le_of_le (y := 1000 * x) (B := 1000) (by push_cast; linarith)
    exact_mod_cast this

theorem round3R_zero_of_small {x : ℝ} (h0 : 0 ≤ x) (h1 : x < 1/2000) : round3R x = 0 := by
  have hy0 : 0 ≤ 1000 * x := by linarith
  have hy1 : 1000 * x < 1/2 := by linarith
  have hfl : ⌊(1000 : ℝ) * x⌋ = 0 := Int.floor_eq_zero_iff.mpr ⟨hy0, by linarith⟩
  unfold round3R rheR
  rw [hfl]
  rw [if_pos (by push_cast; linarith)]
  norm_num

theorem round3R_close (x : ℝ) : |round3R x - x| ≤ 1/2000 := by
  have h := rheR_close (1000 * x)
  unfold round3R
  have heq : ((rheR (1000 * x) : ℤ) : ℝ) / 1000 - x
      = (((rheR (1000 * x) : ℤ) : ℝ) - 1000 * x) / 1000 := by ring
  rw [heq, abs_div]
  rw [abs_of_pos (show (0:ℝ) < 1000 by norm_num)]
  rw [div_le_div_iff₀ (by norm_num) (by norm_num)]
  linarith [h]

/-- C3: with identical non-negative inputs `x`, the model is exactly symmetric:
`compute_xp` returns equal home and away expected points, and
`calculate_match_probabilities` returns equal home-win and away-win
probabilities. -/
theorem claim_C3_symmetry (G : ℕ) (x : ℝ) (_hx : 0 ≤ x) :
    (compute_xp G (some x) (some x)).1 = (compute_xp G (some x) (some x)).2 ∧
    (calculate_match_probabilities G (some x) (some x)).1
      = (calculate_match_probabilities G (some x) (some x)).2.2 := by
  unfold compute_xp calculate_match_probabilities
  dsimp only
  rw [pAwayWin_symm]
  exact ⟨rfl, rfl⟩

/-- C3 witness: symmetry at the concrete input `x = 1.5`, `max_goals = 10`. -/
theorem claim_C3_witness :
    (compute_xp 10 (some (3/2)) (some (3/2))).1
      = (compute_xp 10 (some (3/2)) (some (3/2))).2 ∧
    (calculate_match_probabilities 10 (some (3/2)) (some (3/2))).1
      = (calculate_match_probabilities 10 (some (3/2)) (some (3/2))).2.2 :=
  claim_C3_symmetry 10 (3/2) (by norm_num)

/-- C8: if either xG input is NaN (modelled `none`), `compute_xp` returns NaN
for both expected points and `calculate_match_probabilities` returns NaN for
all three probabilities; both functions are total, so no exception escapes. -/
theorem claim_C8_nan_propagation (G : ℕ) (xh xa : Option ℝ)
    (h : xh = none ∨ xa = none) :
    compute_xp G xh xa = (none, none) ∧
    calculate_match_probabilities G xh xa = (none, none, none) := by
  rcases h with rfl | rfl
  · cases xa <;> exact ⟨rfl, rfl⟩
  · cases xh <;> exact ⟨rfl, rfl⟩

/-- C8 witness: NaN home xG with away xG 2.0 yields all-NaN outputs. -/
theorem claim_C8_witness :
    compute_xp 10 none (some (2 : ℝ)) = (none, none) ∧
    calculate_match_probabilities 10 none (some (2 : ℝ)) = (none, none, none) :=
  claim_C8_nan_propagation 10 none (some 2) (Or.inl rfl)

theorem poissonCdf_ge {G : ℕ} (hG : 10 ≤ G) {lam : ℝ} (h0 : 0 ≤ lam) (h1 : lam ≤ 1) :
    1 - 1/10000000 ≤ poissonCdf G lam := by
  have habs : |lam| = lam := abs_of_nonneg h0
  have hb := Real.exp_bound (x := lam) (by rw [habs]; exact h1) (n := 11) (by norm_num)
  have hS : Real.exp lam - (1 : ℝ)/10000000
      ≤ ∑ m ∈ Finset.range 11, lam ^ m / (Nat.factorial m) := by
    have h2 := (abs_sub_le_iff.mp hb).1
    have h3 : |lam| ^ 11 * ((11 : ℕ).succ / ((Nat.factorial 11 : ℝ) * 11)) ≤ 1/10000000 := by
      rw [habs]
      have h4 : lam ^ 11 ≤ 1 := pow_le_one₀ h0 h1
      have h5 : ((11 : ℕ).succ / ((Nat.factorial 11 : ℝ) * 11)) ≤ 1/10000000 := by
        norm_num [Nat.factorial]
      have h6 : (0:ℝ) ≤ ((11 : ℕ).succ / ((Nat.factorial 11 : ℝ) * 11)) := by positivity
      calc lam ^ 11 * ((11 : ℕ).succ / ((Nat.factorial 11 : ℝ) * 11))
          ≤ 1 * ((11 : ℕ).succ / ((Nat.factorial 11 : ℝ) * 11)) := by
            apply mul_le_mul_of_nonneg_right h4 h6
        _ ≤ 1/10000000 := by rw [one_mul]; exact h5
    linarith
  have hsub : ∑ k ∈ Finset.range 11, poissonPmf lam k ≤ poissonCdf G lam := by
    apply Finset.sum_le_sum_of_subset_of_nonneg
    · apply Finset.range_subset.mpr
      omega
    · intro k _ _
      exact poissonPmf_nonneg h0 k
  have heq : ∑ k ∈ Finset.range 11, poissonPmf lam k
      = Real.exp (-lam) * ∑ k ∈ Finset.range 11, lam ^ k / (Nat.factorial k) :=
    sum_pmf_eq 11 lam
  have hexple : Real.exp (-lam) ≤ 1 := by
    rw [show (1:ℝ) = Real.exp 0 from (Real.exp_zero).symm]
    exact Real.exp_le_exp.mpr (by linarith)
  have hexppos : (0:ℝ) < Real.exp (-lam) := Real.exp_pos _
  have hkey : Real.exp (-lam) * (Real.exp lam - 1/10000000)
      ≤ Real.exp (-lam) * ∑ k ∈ Finset.range 11, lam ^ k / (Nat.factorial k) :=
    mul_le_mul_of_nonneg_left hS hexppos.le
  have hone : Real.exp (-lam) * Real.exp lam = 1 := by
    rw [← Real.exp_add]
    simp
  have hexpand : Real.exp (-lam) * (Real.exp lam - 1/10000000)
      = 1 - Real.exp (-lam) * (1/10000000) := by
    rw [mul_sub, hone]
  rw [hexpand] at hkey
  have hfin : 1 - 1/10000000 ≤ 1 - Real.exp (-lam) * (1/10000000) := by
    nlinarith
  rw [heq] at hsub
  linarith

theorem cdf_small_at_huge : poissonCdf 10 ((10:ℝ)^11) ≤ 1/100 := by
  have hL0 : (0:ℝ) ≤ (10:ℝ)^11 := by positivity
  have hL1 : (1:ℝ) ≤ (10:ℝ)^11 := by norm_num
  have hterm : ((10:ℝ)^11)^11 / (Nat.factorial 11 : ℝ)
      ≤ ∑ i ∈ Finset.range 12, ((10:ℝ)^11)^i / (Nat.factorial i : ℝ) := by
    apply Finset.single_le_sum (f := fun i => ((10:ℝ)^11)^i / (Nat.factorial i : ℝ))
    · intro i _
      positivity
    · simp
  have hexp : ((10:ℝ)^11)^11 / (Nat.factorial 11 : ℝ) ≤ Real.exp ((10:ℝ)^11) :=
    hterm.trans (Real.sum_le_exp_of_nonneg hL0 12)
  have hquotpos : (0:ℝ) < ((10:ℝ)^11)^11 / (Nat.factorial 11 : ℝ) := by positivity
  have hinv : Real.exp (-((10:ℝ)^11)) ≤ (Nat.factorial 11 : ℝ) / ((10:ℝ)^11)^11 := by
    rw [Real.exp_neg]
    rw [show (Nat.factorial 11 : ℝ) / ((10:ℝ)^11)^11
        = (((10:ℝ)^11)^11 / (Nat.factorial 11 : ℝ))⁻¹ from by rw [inv_div]]
    exact inv_anti₀ hquotpos hexp
  have hS : ∑ k ∈ Finset.range 11, ((10:ℝ)^11)^k / (Nat.factorial k : ℝ)
      ≤ 11 * ((10:ℝ)^11)^10 := by
    have hterm2 : ∀ k ∈ Finset.range 11,
        ((10:ℝ)^11)^k / (Nat.factorial k : ℝ) ≤ ((10:ℝ)^11)^10 := by
      intro k hk
      have hk10 : k ≤ 10 := by
        simp only [Finset.mem_range] at hk
        omega
      have hfac : (1:ℝ) ≤ (Nat.factorial k : ℝ) := by
        exact_mod_cast Nat.one_le_iff_ne_zero.mpr (Nat.factorial_ne_zero k)
      have hd : ((10:ℝ)^11)^k / (Nat.factorial k : ℝ) ≤ ((10:ℝ)^11)^k := by
        apply div_le_self (by positivity) hfac
      exact hd.trans (pow_le_pow_right₀ hL1 hk10)
    calc ∑ k ∈ Finset.range 11, ((10:ℝ)^11)^k / (Nat.factorial k : ℝ)
        ≤ Finset.card (Finset.range 11) • (((10:ℝ)^11)^10) :=
          Finset.sum_le_card_nsmul _ _ _ hterm2
      _ = 11 * ((10:ℝ)^11)^10 := by
          rw [Finset.card_range, nsmul_eq_mul]
          norm_num
  have hSnn : (0:ℝ) ≤ ∑ k ∈ Finset.range 11, ((10:ℝ)^11)^k / (Nat.factorial k : ℝ) := by
    apply Finset.sum_nonneg
    intro k _
    positivity
  have heq : poissonCdf 10 ((10:ℝ)^11)
      = Real.exp (-((10:ℝ)^11))
        * ∑ k ∈ Finset.range 11, ((10:ℝ)^11)^k / (Nat.factorial k : ℝ) :=
    sum_pmf_eq 11 ((10:ℝ)^11)
  rw [heq]
  calc Real.exp (-((10:ℝ)^11))
        * ∑ k ∈ Finset.range 11, ((10:ℝ)^11)^k / (Nat.factorial k : ℝ)
      ≤ ((Nat.factorial 11 : ℝ) / ((10:ℝ)^11)^11) * (11 * ((10:ℝ)^11)^10) := by
        apply mul_le_mul hinv hS hSnn
        positivity
    _ ≤ 1/100 := by norm_num [Nat.factorial]

/-- C1 counterexample: at the finite, non-negative inputs
`home_xg = away_xg = 10^11` with `max_goals = 10`, the truncated scoreline grid
captures almost no probability mass: all three returned probabilities are
exactly 0 and their sum is 1 away from 1.0, far outside the claimed 1e-3. -/
theorem claim_C1_counterexample :
    calculate_match_probabilities 10 (some ((10:ℝ)^11)) (some ((10:ℝ)^11))
      = (some 0, some 0, some 0) ∧
    ¬ (|(0:ℝ) + 0 + 0 - 1| ≤ 1/1000) := by
  constructor
  · have hL0 : (0:ℝ) ≤ (10:ℝ)^11 := by positivity
    have hcdf := cdf_small_at_huge
    have hcdfnn := poissonCdf_nonneg (G := 10) hL0
    have hb := buckets_le_cdfs 10 hL0 hL0
    have hprod : poissonCdf 10 ((10:ℝ)^11) * poissonCdf 10 ((10:ℝ)^11) ≤ 1/10000 := by
      have h := mul_le_mul hcdf hcdf hcdfnn (by norm_num : (0:ℝ) ≤ 1/100)
      linarith
    have ha0 := pHomeWin_nonneg (G := 10) hL0 hL0
    have hb0 := pDraw_nonneg (G := 10) hL0 hL0
    have hc0 := pAwayWin_nonneg (G := 10) hL0 hL0
    have z1 : round3R (pHomeWin 10 ((10:ℝ)^11) ((10:ℝ)^11)) = 0 :=
      round3R_zero_of_small ha0 (lt_of_le_of_lt (hb.1.trans hprod) (by norm_num))
    have z2 : round3R (pDraw 10 ((10:ℝ)^11) ((10:ℝ)^11)) = 0 :=
      round3R_zero_of_small hb0 (lt_of_le_of_lt (hb.2.1.trans hprod) (by norm_num))
    have z3 : round3R (pAwayWin 10 ((10:ℝ)^11) ((10:ℝ)^11)) = 0 :=
      round3R_zero_of_small hc0 (lt_of_le_of_lt (hb.2.2.trans hprod) (by norm_num))
    unfold calculate_match_probabilities
    dsimp only
    rw [z1, z2, z3]
  · rw [abs_le]
    norm_num

/-- C1 corrected: the three returned probabilities always lie in [0, 1] (for
any finite non-negative inputs and any `max_goals`), but the sum being within
1e-3 of 1.0 requires bounded inputs: with `max_goals ≥ 10` and both xG values
at most 1, the pre-rounding outcome masses sum to within 1e-3 of 1, and the
rounded, returned probabilities sum to within 1e-3 + 3·(5e-4) = 2.5e-3 of 1.
For large inputs the truncated grid loses nearly all mass (see the
counterexample). -/
theorem claim_C1_amended_bounded (G : ℕ) (lh la : ℝ) (hG : 10 ≤ G)
    (h1 : 0 ≤ lh) (h2 : 0 ≤ la) :
    calculate_match_probabilities G (some lh) (some la)
      = (some (round3R (pHomeWin G lh la)), some (round3R (pDraw G lh la)),
         some (round3R (pAwayWin G lh la))) ∧
    (0 ≤ round3R (pHomeWin G lh la) ∧ round3R (pHomeWin G lh la) ≤ 1) ∧
    (0 ≤ round3R (pDraw G lh la) ∧ round3R (pDraw G lh la) ≤ 1) ∧
    (0 ≤ round3R (pAwayWin G lh la) ∧ round3R (pAwayWin G lh la) ≤ 1) ∧
    (lh ≤ 1 → la ≤ 1 →
      |pHomeWin G lh la + pDraw G lh la + pAwayWin G lh la - 1| ≤ 1/1000 ∧
      |round3R (pHomeWin G lh la) + round3R (pDraw G lh la)
        + round3R (pAwayWin G lh la) - 1| ≤ 1/400) := by
  have hble := buckets_le_cdfs G h1 h2
  have hprod := cdfs_prod_le_one (G := G) h1 h2
  have ha0 := pHomeWin_nonneg (G := G) h1 h2
  have hb0 := pDraw_nonneg (G := G) h1 h2
  have hc0 := pAwayWin_nonneg (G := G) h1 h2
  have hA := round3R_mem_unit ha0 (hble.1.trans hprod)
  have hB := round3R_mem_unit hb0 (hble.2.1.trans hprod)
  have hC := round3R_mem_unit hc0 (hble.2.2.trans hprod)
  refine ⟨rfl, hA, hB, hC, ?_⟩
  intro hl1 hl2
  have hg1 := poissonCdf_ge hG h1 hl1
  have hg2 := poissonCdf_ge hG h2 hl2
  have hcdf1le := poissonCdf_le_one (G := G) h1
  have hcdf2le := poissonCdf_le_one (G := G) h2
  have hpart := bucket_partition G lh la
  have hlow : 1 - 1/1000 ≤ poissonCdf G lh * poissonCdf G la := by nlinarith
  have hsum1 : |pHomeWin G lh la + pDraw G lh la + pAwayWin G lh la - 1| ≤ 1/1000 := by
    rw [abs_le]
    constructor <;> nlinarith
  refine ⟨hsum1, ?_⟩
  have r1 := round3R_close (pHomeWin G lh la)
  have r2 := round3R_close (pDraw G lh la)
  have r3 := round3R_close (pAwayWin G lh la)
  rw [abs_le] at r1 r2 r3 hsum1 ⊢
  constructor <;> linarith

/-- C1 amended witness: at `home_xg = away_xg = 0`, `max_goals = 10`, all the
amended bounds hold. -/
theorem claim_C1_amended_witness :
    calculate_match_probabilities 10 (some (0:ℝ)) (some (0:ℝ))
      = (some (round3R (pHomeWin 10 0 0)), some (round3R (pDraw 10 0 0)),
         some (round3R (pAwayWin 10 0 0))) ∧
    (0 ≤ round3R (pHomeWin 10 (0:ℝ) 0) ∧ round3R (pHomeWin 10 (0:ℝ) 0) ≤ 1) ∧
    (0 ≤ round3R (pDraw 10 (0:ℝ) 0) ∧ round3R (pDraw 10 (0:ℝ) 0) ≤ 1) ∧
    (0 ≤ round3R (pAwayWin 10 (0:ℝ) 0) ∧ round3R (pAwayWin 10 (0:ℝ) 0) ≤ 1) ∧
    ((0:ℝ) ≤ 1 → (0:ℝ) ≤ 1 →
      |pHomeWin 10 (0:ℝ) 0 + pDraw 10 0 0 + pAwayWin 10 0 0 - 1| ≤ 1/1000 ∧
      |round3R (pHomeWin 10 (0:ℝ) 0) + round3R (pDraw 10 0 0)
        + round3R (pAwayWin 10 0 0) - 1| ≤ 1/400) :=
  claim_C1_amended_bounded 10 0 0 (le_refl 10) (le_refl 0) (le_refl 0)
